import Mathlib

/-!
Verification of the kademlia repository's node / candidate-heap / protocol
layer (`src/kademlia/node.py`, `src/kademlia/protocol.py`) against its
natural-language specification.  Python functions are shallowly embedded as
Lean functions; handler side effects become explicit state passing.
-/

namespace Kademlia

/-- A Python value stored in the DHT.  `PyValue.none` models Python's `None`,
which the protocol handlers also use as the absent-key sentinel
(`storage.get(key, None)` in `rpc_find_value`). -/
inductive PyValue where
  | none : PyValue
  | val : Nat → PyValue
deriving DecidableEq

/-- `kademlia/node.py`, class `Node`: an identifier plus an optional network
address.  The source keeps `id` as a byte string and `long_id` as the
big-endian integer of those bytes; identifiers are fixed-width 160-bit values
(spec section 3, "fixed-length (160-bit) identifier"), under which the byte
string and the integer determine each other, so one `Nat` field models both. -/
structure Node where
  id : Nat
  ip : Option String := Option.none
  port : Option Nat := Option.none
deriving DecidableEq

/-- `Node.distance_to`: XOR of the two nodes' integer identifiers. -/
def Node.distance_to (a b : Node) : Nat :=
  a.id ^^^ b.id

/-- `Node.__eq__`: Python equality compares only the (ip, port) address pair. -/
def Node.pyEq (a b : Node) : Bool :=
  a.ip == b.ip && a.port == b.port

/-- `Node.__hash__`: the numeric identifier (`long_id`). -/
def Node.pyHash (a : Node) : Nat :=
  a.id

/-- `Node.is_same_node`: same (ip, port) home address. -/
def Node.is_same_node (a b : Node) : Bool :=
  a.ip == b.ip && a.port == b.port

/-- Claim C8: XOR distance is symmetric, zero on the diagonal, and zero exactly
when the two nodes' identifiers are bitwise equal. -/
theorem distance_to_symm_zero (a b : Node) :
    a.distance_to b = b.distance_to a ∧
    a.distance_to a = 0 ∧
    (a.distance_to b = 0 ↔ a.id = b.id) := by
  refine ⟨Nat.xor_comm a.id b.id, Nat.xor_self a.id, Nat.xor_eq_zero⟩

/-- Claim C8 (witness): concrete evaluation of the three distance facts. -/
theorem distance_to_symm_zero_witness :
    (Node.mk 5 Option.none Option.none).distance_to (Node.mk 3 Option.none Option.none) =
      (Node.mk 3 Option.none Option.none).distance_to (Node.mk 5 Option.none Option.none) ∧
    (Node.mk 5 Option.none Option.none).distance_to (Node.mk 5 Option.none Option.none) = 0 := by
  have h := distance_to_symm_zero (Node.mk 5 Option.none Option.none)
    (Node.mk 3 Option.none Option.none)
  exact ⟨h.1, h.2.1⟩

/-- Claim C10: Python equality of `Node` ignores the identifier while the hash
is the identifier: two nodes can be `==` with different hashes, and two nodes
with equal identifiers but different addresses are not `==`. -/
theorem node_eq_hash_mismatch :
    (Node.pyEq (Node.mk 1 (Option.some "x") (Option.some 1))
        (Node.mk 2 (Option.some "x") (Option.some 1)) = true ∧
      Node.pyHash (Node.mk 1 (Option.some "x") (Option.some 1)) ≠
        Node.pyHash (Node.mk 2 (Option.some "x") (Option.some 1))) ∧
    ((Node.mk 1 (Option.some "x") (Option.some 1)).id =
        (Node.mk 1 (Option.some "y") (Option.some 1)).id ∧
      Node.pyEq (Node.mk 1 (Option.some "x") (Option.some 1))
        (Node.mk 1 (Option.some "y") (Option.some 1)) = false) := by
  refine ⟨⟨by decide, by decide⟩, ⟨rfl, by decide⟩⟩

/-!
### `kademlia/node.py`, class `NodeHeap`

The source stores a Python `heapq` binary heap of `(distance, node)` pairs.
The heap layout is an implementation detail: every observation the source
makes of the list (`len`, `heapq.nsmallest`, membership scan, full filter)
is invariant under the heap's internal permutation, so the model keeps the
entries as a plain list in arrival order and realises `nsmallest` by sorting
on the distance component.
-/

/-- Ordering of heap entries used by `heapq`: compare the distance component.
(`heapq` would compare the `Node` components on a distance tie, which Python
cannot order; entries of reachable heaps always have distinct distances, see
`nodeheap_iter_sorted`.) -/
def entryLe (a b : Nat × Node) : Prop :=
  a.1 ≤ b.1

instance : DecidableRel entryLe := fun a b => Nat.decLe a.1 b.1

instance : IsTotal (Nat × Node) entryLe :=
  ⟨fun a b => Nat.le_total a.1 b.1⟩

instance : IsTrans (Nat × Node) entryLe :=
  ⟨fun _ _ _ h h' => Nat.le_trans h h'⟩

/-- `NodeHeap`: a heap of nodes ordered by distance to a given node. -/
structure NodeHeap where
  node : Node
  heap : List (Nat × Node) := []
  contacted : List Nat := []
  maxsize : Nat

/-- `NodeHeap.__init__(node, maxsize)`. -/
def NodeHeap.new (node : Node) (maxsize : Nat) : NodeHeap :=
  { node := node, heap := [], contacted := [], maxsize := maxsize }

/-- The identifiers of the entries currently in the underlying heap list. -/
def heapIds (l : List (Nat × Node)) : List Nat :=
  l.map (fun e => e.2.id)

/-- `NodeHeap.__contains__`: scan the heap for an entry with the same id. -/
def NodeHeap.containsNode (h : NodeHeap) (n : Node) : Bool :=
  h.heap.any (fun e => e.2.id == n.id)

/-- `NodeHeap.push` for a single node: if no entry shares the node's id,
`heapq.heappush` the pair `(distance, node)` (modelled as appending; the heap
layout is a permutation the observations cannot see). -/
def NodeHeap.push1 (h : NodeHeap) (n : Node) : NodeHeap :=
  if h.containsNode n then h
  else { h with heap := h.heap ++ [(h.node.distance_to n, n)] }

/-- `NodeHeap.push`: push a list of nodes in order (the source wraps a single
node into a one-element list). -/
def NodeHeap.push (h : NodeHeap) (ns : List Node) : NodeHeap :=
  ns.foldl NodeHeap.push1 h

/-- `NodeHeap.__len__`: `min(len(self.heap), self.maxsize)`. -/
def NodeHeap.len (h : NodeHeap) : Nat :=
  min h.heap.length h.maxsize

/-- `NodeHeap.__iter__`: `heapq.nsmallest(self.maxsize, self.heap)` then
project out the nodes.  `nsmallest` returns the `maxsize` smallest entries in
ascending order, i.e. the sorted list truncated to `maxsize`. -/
def NodeHeap.iterNodes (h : NodeHeap) : List Node :=
  ((List.insertionSort entryLe h.heap).take h.maxsize).map Prod.snd

/-- `NodeHeap.remove`: rebuild the underlying heap, re-pushing only the
entries whose node id is not among the ids to prune (`nheap` in the source);
re-pushing in iteration order is modelled as re-appending. -/
def NodeHeap.remove (h : NodeHeap) (ids : List Nat) : NodeHeap :=
  if ids = [] then h
  else
    { h with
      heap := h.heap.foldl (fun acc e => if ids.contains e.2.id then acc else acc ++ [e]) [] }

/-- Invariant of every reachable heap list: each entry records the distance
from the reference node to its own node, and no two entries share an id. -/
def goodHeap (ref : Node) (l : List (Nat × Node)) : Prop :=
  (∀ e ∈ l, e.1 = ref.distance_to e.2) ∧ (heapIds l).Nodup

theorem containsNode_iff (h : NodeHeap) (n : Node) :
    h.containsNode n = true ↔ n.id ∈ heapIds h.heap := by
  simp [NodeHeap.containsNode, heapIds, List.any_eq_true, List.mem_map, beq_iff_eq]

theorem push1_of_contains (h : NodeHeap) (n : Node) (hc : h.containsNode n = true) :
    h.push1 n = h := by
  simp [NodeHeap.push1, hc]

theorem push1_node (h : NodeHeap) (n : Node) : (h.push1 n).node = h.node := by
  unfold NodeHeap.push1; split <;> rfl

theorem push1_maxsize (h : NodeHeap) (n : Node) : (h.push1 n).maxsize = h.maxsize := by
  unfold NodeHeap.push1; split <;> rfl

theorem push_node (h : NodeHeap) (ns : List Node) : (h.push ns).node = h.node := by
  induction ns generalizing h with
  | nil => rfl
  | cons a t ih => rw [NodeHeap.push, List.foldl_cons, ← NodeHeap.push, ih, push1_node]

theorem push_maxsize (h : NodeHeap) (ns : List Node) : (h.push ns).maxsize = h.maxsize := by
  induction ns generalizing h with
  | nil => rfl
  | cons a t ih => rw [NodeHeap.push, List.foldl_cons, ← NodeHeap.push, ih, push1_maxsize]

theorem goodHeap_push1 (h : NodeHeap) (n : Node) (hg : goodHeap h.node h.heap) :
    goodHeap h.node (h.push1 n).heap := by
  unfold NodeHeap.push1
  split
  · exact hg
  · rename_i hnc
    refine ⟨?_, ?_⟩
    · intro e he
      rcases List.mem_append.1 he with h1 | h1
      · exact hg.1 e h1
      · simp only [List.mem_singleton] at h1
        subst h1; rfl
    · have hnot : n.id ∉ heapIds h.heap := by
        intro hmem
        exact hnc ((containsNode_iff h n).2 hmem)
      simpa [heapIds, List.nodup_append] using And.intro hg.2 hnot

theorem heapIds_push1_toFinset (h : NodeHeap) (n : Node) :
    (heapIds (h.push1 n).heap).toFinset = insert n.id (heapIds h.heap).toFinset := by
  unfold NodeHeap.push1
  split
  · rename_i hc
    have : n.id ∈ (heapIds h.heap).toFinset :=
      List.mem_toFinset.2 ((containsNode_iff h n).1 hc)
    rw [Finset.insert_eq_self.2 this]
  · simp [heapIds, Finset.union_comm, ← Finset.insert_eq]

theorem goodHeap_push (h : NodeHeap) (ns : List Node) (hg : goodHeap h.node h.heap) :
    goodHeap h.node (h.push ns).heap := by
  induction ns generalizing h with
  | nil => exact hg
  | cons a t ih =>
      rw [NodeHeap.push, List.foldl_cons, ← NodeHeap.push]
      have hg' := goodHeap_push1 h a hg
      rw [← push1_node h a] at hg'
      have := ih (h.push1 a) hg'
      rwa [push1_node] at this

theorem heapIds_push_toFinset (h : NodeHeap) (ns : List Node) :
    (heapIds (h.push ns).heap).toFinset =
      (heapIds h.heap).toFinset ∪ (ns.map Node.id).toFinset := by
  induction ns generalizing h with
  | nil => simp [NodeHeap.push]
  | cons a t ih =>
      rw [NodeHeap.push, List.foldl_cons, ← NodeHeap.push, ih, heapIds_push1_toFinset]
      simp [Finset.union_comm, Finset.union_left_comm, Finset.insert_eq]

theorem goodHeap_push_new (ref : Node) (m : Nat) (ns : List Node) :
    goodHeap ref ((NodeHeap.new ref m).push ns).heap := by
  refine goodHeap_push (NodeHeap.new ref m) ns ⟨?_, ?_⟩
  · intro e he
    simp [NodeHeap.new] at he
  · simp [heapIds, NodeHeap.new]

theorem heap_length_push_new (ref : Node) (m : Nat) (ns : List Node) :
    ((NodeHeap.new ref m).push ns).heap.length = (ns.map Node.id).dedup.length := by
  have hgood := goodHeap_push_new ref m ns
  have hfin := heapIds_push_toFinset (NodeHeap.new ref m) ns
  have hids : heapIds (NodeHeap.new ref m).heap = [] := rfl
  rw [hids] at hfin
  simp only [List.toFinset_nil, Finset.empty_union] at hfin
  have hlen : ((NodeHeap.new ref m).push ns).heap.length
      = (heapIds ((NodeHeap.new ref m).push ns).heap).length := by
    simp [heapIds]
  rw [hlen, ← List.toFinset_card_of_nodup hgood.2, hfin, List.card_toFinset]

/-- Claim C5: after pushing any sequence of nodes onto a fresh `NodeHeap` with
bound `m`, the visible length is `min(distinct ids pushed, m)`, and pushing a
node whose identifier is already present does not change the length. -/
theorem nodeheap_push_len (ref : Node) (m : Nat) (ns : List Node) :
    ((NodeHeap.new ref m).push ns).len = min (ns.map Node.id).dedup.length m ∧
    ∀ n, ((NodeHeap.new ref m).push ns).containsNode n = true →
      (((NodeHeap.new ref m).push ns).push [n]).len = ((NodeHeap.new ref m).push ns).len := by
  constructor
  · unfold NodeHeap.len
    rw [heap_length_push_new]
    have : ((NodeHeap.new ref m).push ns).maxsize = m := push_maxsize _ ns
    rw [this]
  · intro n hc
    have hstep : ((NodeHeap.new ref m).push ns).push [n]
        = ((NodeHeap.new ref m).push ns).push1 n := rfl
    rw [hstep, push1_of_contains _ n hc]

/-- Sample nodes for concrete evaluations. -/
def ref0 : Node := { id := 0 }

def nd5 : Node := { id := 5 }

def nd3 : Node := { id := 3 }

def nd9 : Node := { id := 9 }

/-- Claim C5 (witness): pushing ids 5, 3, 9, then 3 again (other address)
gives visible length `min 3 2 = 2`, and one more duplicate push keeps it. -/
theorem nodeheap_push_len_witness :
    ((NodeHeap.new ref0 2).push
        [nd5, nd3, nd9, { id := 3, ip := Option.some "b", port := Option.some 2 }]).len = 2 ∧
    (((NodeHeap.new ref0 2).push
        [nd5, nd3, nd9, { id := 3, ip := Option.some "b", port := Option.some 2 }]).push
      [{ id := 9, ip := Option.some "c", port := Option.some 7 }]).len = 2 := by
  have h := nodeheap_push_len ref0 2
    [nd5, nd3, nd9, { id := 3, ip := Option.some "b", port := Option.some 2 }]
  constructor
  · rw [h.1]; decide
  · rw [h.2 { id := 9, ip := Option.some "c", port := Option.some 7 } (by decide), h.1]; decide

theorem heap_pairwise_dist_ne (ref : Node) (l : List (Nat × Node))
    (hg : goodHeap ref l) : l.Pairwise (fun a b => a.1 ≠ b.1) := by
  have hid : l.Pairwise (fun a b => a.2.id ≠ b.2.id) := by
    have := hg.2
    rw [heapIds] at this
    exact List.pairwise_map.1 this
  refine hid.imp_of_mem ?_
  intro a b ha hb hne heq
  apply hne
  have hda := hg.1 a ha
  have hdb := hg.1 b hb
  rw [hda, hdb] at heq
  exact Nat.xor_right_inj.1 heq

/-- Claim C6: iterating a `NodeHeap` built by pushes yields at most `maxsize`
nodes whose distances to the reference node strictly increase (hence are
non-decreasing, and no two yielded nodes share a distance, so the
insertion-order tie-break clause is vacuous); moreover a push of a node whose
distance coincides with an existing entry's is a no-op, so push and iteration
are well-defined on that input rather than tripping the source's undefined
comparison of `Node` values on a `heapq` tie. -/
theorem nodeheap_iter_sorted (ref : Node) (m : Nat) (ns : List Node) :
    ((NodeHeap.new ref m).push ns).iterNodes.length ≤ m ∧
    ((NodeHeap.new ref m).push ns).iterNodes.Pairwise
      (fun a b => ref.distance_to a < ref.distance_to b) ∧
    (∀ n e, e ∈ ((NodeHeap.new ref m).push ns).heap → e.1 = ref.distance_to n →
      ((NodeHeap.new ref m).push ns).push1 n = (NodeHeap.new ref m).push ns) := by
  have hgood := goodHeap_push_new ref m ns
  have hmax : ((NodeHeap.new ref m).push ns).maxsize = m := push_maxsize _ ns
  have hperm := List.perm_insertionSort entryLe ((NodeHeap.new ref m).push ns).heap
  refine ⟨?_, ?_, ?_⟩
  · unfold NodeHeap.iterNodes
    rw [List.length_map, List.length_take, hmax]
    exact Nat.min_le_left _ _
  · have hsorted : (List.insertionSort entryLe ((NodeHeap.new ref m).push ns).heap).Pairwise
        entryLe := List.sorted_insertionSort entryLe _
    have hne : (List.insertionSort entryLe ((NodeHeap.new ref m).push ns).heap).Pairwise
        (fun a b => a.1 ≠ b.1) := by
      refine (hperm.pairwise_iff fun hab => ?_).2 (heap_pairwise_dist_ne ref _ hgood)
      exact fun h => hab h.symm
    have hlt := (hsorted.and hne).imp (fun hab => Nat.lt_of_le_of_ne hab.1 hab.2)
    have htake := hlt.sublist (List.take_sublist ((NodeHeap.new ref m).push ns).maxsize
      (List.insertionSort entryLe ((NodeHeap.new ref m).push ns).heap))
    rw [NodeHeap.iterNodes]
    refine List.pairwise_map.2 (htake.imp_of_mem ?_)
    intro a b ha hb hab
    have ha' := hgood.1 a (hperm.mem_iff.1 ((List.take_sublist _ _).mem ha))
    have hb' := hgood.1 b (hperm.mem_iff.1 ((List.take_sublist _ _).mem hb))
    rwa [ha', hb'] at hab
  · intro n e he hdist
    have hid : e.2.id = n.id := by
      have := hgood.1 e he
      rw [this] at hdist
      exact Nat.xor_right_inj.1 hdist
    refine push1_of_contains _ n ?_
    exact (containsNode_iff _ n).2 (hid ▸ List.mem_map.2 ⟨e, he, rfl⟩)

/-- Claim C6 (witness): pushing ids 5, 3, 9 with reference id 0 and bound 2
iterates as [id 3, id 5], within the bound and strictly by distance; a push at
the already-present distance 5 is a no-op. -/
theorem nodeheap_iter_sorted_witness :
    ((NodeHeap.new ref0 2).push [nd5, nd3, nd9]).iterNodes.length ≤ 2 ∧
    ((NodeHeap.new ref0 2).push [nd5, nd3, nd9]).iterNodes = [nd3, nd5] ∧
    ((NodeHeap.new ref0 2).push [nd5, nd3, nd9]).push1
        { id := 5, ip := Option.some "z", port := Option.some 9 } =
      (NodeHeap.new ref0 2).push [nd5, nd3, nd9] := by
  have h := nodeheap_iter_sorted ref0 2 [nd5, nd3, nd9]
  refine ⟨h.1, by decide, ?_⟩
  exact h.2.2 { id := 5, ip := Option.some "z", port := Option.some 9 } (5, nd5)
    (by decide) (by decide)

theorem remove_foldl_eq_filter (ids : List Nat) (l : List (Nat × Node))
    (acc : List (Nat × Node)) :
    l.foldl (fun acc e => if ids.contains e.2.id then acc else acc ++ [e]) acc =
      acc ++ l.filter (fun e => !(ids.contains e.2.id)) := by
  induction l generalizing acc with
  | nil => simp
  | cons a t ih =>
      rw [List.foldl_cons]
      by_cases hc : ids.contains a.2.id
      · have hm : a.2.id ∈ ids := by simpa using hc
        rw [if_pos hc, ih]
        simp [List.filter_cons, hm]
      · have hm : a.2.id ∉ ids := by simpa using hc
        rw [if_neg hc, ih]
        simp [List.filter_cons, hm]

/-- Claim C7 (counterexample to laziness): after pushing ids 5, 3, 9 onto a
bound-2 heap, the entry with id 3 occupies the underlying heap; immediately
after `remove [3]` — with nothing popped — no entry with id 3 remains in the
internal storage, so deletion is eager, not lazy.  (The visible-size half of
the claim does hold: the visible length stays 2 and the previously hidden
id 9 becomes visible.) -/
theorem nodeheap_remove_not_lazy :
    ((NodeHeap.new ref0 2).push [nd5, nd3, nd9]).heap.any (fun e => e.2.id == 3) = true ∧
    (((NodeHeap.new ref0 2).push [nd5, nd3, nd9]).remove [3]).heap.any
        (fun e => e.2.id == 3) = false ∧
    (((NodeHeap.new ref0 2).push [nd5, nd3, nd9]).remove [3]).len = 2 ∧
    (((NodeHeap.new ref0 2).push [nd5, nd3, nd9]).remove [3]).iterNodes = [nd5, nd9] := by
  decide

/-- Claim C7 (amended): `remove(peerIds)` eagerly deletes every matching entry
from the underlying structure in one pass, while the externally visible size
stays `min(underlying_count, maxsize)` — computed over the surviving entries —
so previously hidden nodes become visible when removals shrink the underlying
heap below the bound. -/
theorem nodeheap_remove_spec (h : NodeHeap) (ids : List Nat) :
    (h.remove ids).heap = h.heap.filter (fun e => !(ids.contains e.2.id)) ∧
    (h.remove ids).len =
      min (h.heap.filter (fun e => !(ids.contains e.2.id))).length h.maxsize ∧
    (h.remove ids).maxsize = h.maxsize ∧
    (h.remove ids).node = h.node ∧
    (h.remove ids).contacted = h.contacted := by
  have hheap : (h.remove ids).heap = h.heap.filter (fun e => !(ids.contains e.2.id)) := by
    unfold NodeHeap.remove
    split
    · rename_i hnil
      subst hnil
      simp [List.contains]
    · rw [remove_foldl_eq_filter, List.nil_append]
  have hmax : (h.remove ids).maxsize = h.maxsize := by
    unfold NodeHeap.remove; split <;> rfl
  refine ⟨hheap, ?_, hmax, ?_, ?_⟩
  · rw [NodeHeap.len, hheap, hmax]
  · unfold NodeHeap.remove; split <;> rfl
  · unfold NodeHeap.remove; split <;> rfl

/-!
### Collaborators of `kademlia/protocol.py` that are not under `src/`

`kademlia/storage.py`, `kademlia/routing.py` and `kademlia/utils.py` are
referenced by the protocol but absent from the sources, so they are modelled
from the spec's contracts (sections 3, 4.1, 6).
-/

/-- Modelled from the spec: `kademlia/utils.py` `digest` is not under `src/`.
Section 6: "deterministic hash used to map arbitrary keys into identifier
space" (20-byte identifiers).  Modelled as a fixed deterministic mixing
function into `[0, 2^160)`. -/
def digest (key : Nat) : Nat :=
  (key * 2654435761 + 40503) % 2 ^ 160

/-- Modelled from the spec: `kademlia/storage.py` (`ForgetfulStorage`) is not
under `src/`.  Section 3 `StorageEntry`: key, value, insertion timestamp;
entries older than the TTL are invisible to reads and excluded from
iteration, checked lazily on access.  Entries are kept in insertion order. -/
structure Storage where
  ttl : Nat
  data : List (Nat × Nat × PyValue) := []

/-- The non-expired entries at time `now` (an entry born at `b` is visible
while its age `now - b` is at most the TTL; "older than a configured TTL"
means invisible strictly beyond it). -/
def Storage.fresh (s : Storage) (now : Nat) : List (Nat × Nat × PyValue) :=
  s.data.filter (fun e => now - e.2.1 ≤ s.ttl)

/-- `storage[key] = value` at time `now`: drop any old entry for the key and
append the new one with the current timestamp. -/
def Storage.set (s : Storage) (now key : Nat) (v : PyValue) : Storage :=
  { s with data := s.data.filter (fun e => !(e.1 == key)) ++ [(key, now, v)] }

/-- `storage.get(key, default)` without the default: the stored value of a
non-expired entry for the key, if any. -/
def Storage.get? (s : Storage) (now key : Nat) : Option PyValue :=
  ((s.fresh now).find? (fun e => e.1 == key)).map (fun e => e.2.2)

/-- Iteration over non-expired `(key, value)` pairs. -/
def Storage.items (s : Storage) (now : Nat) : List (Nat × PyValue) :=
  (s.fresh now).map (fun e => (e.1, e.2.2))

/-- Ordering of candidate neighbors: ascending XOR distance to a target. -/
def nodeDistLe (target : Node) (a b : Node) : Prop :=
  a.distance_to target ≤ b.distance_to target

instance (target : Node) : DecidableRel (nodeDistLe target) :=
  fun a b => Nat.decLe (a.distance_to target) (b.distance_to target)

instance (target : Node) : IsTotal Node (nodeDistLe target) :=
  ⟨fun a b => Nat.le_total (a.distance_to target) (b.distance_to target)⟩

instance (target : Node) : IsTrans Node (nodeDistLe target) :=
  ⟨fun _ _ _ h h' => Nat.le_trans h h'⟩

/-- Modelled from the spec: `kademlia/routing.py` (`RoutingTable`) is not
under `src/`.  Section 4.1 gives the contract: `isNewNode(peer)` reports
whether the peer is currently absent; `addContact(peer)` inserts or
refreshes; `removeContact(peer)` deletes unconditionally;
`findNeighbors(target, k, exclude)` returns up to `k` known peers ordered by
ascending distance to `target`, excluding one caller-specified peer.  The
k-bucket partition is an internal layout none of the claims observe, so the
known peers are kept flat; peers are keyed by identifier, exclusion is by
home address (`Node.is_same_node`). -/
structure RoutingTable where
  ksize : Nat
  contacts : List Node := []

def RoutingTable.is_new_node (r : RoutingTable) (n : Node) : Bool :=
  !(r.contacts.any (fun c => c.id == n.id))

def RoutingTable.add_contact (r : RoutingTable) (n : Node) : RoutingTable :=
  if r.is_new_node n then { r with contacts := r.contacts ++ [n] } else r

def RoutingTable.remove_contact (r : RoutingTable) (n : Node) : RoutingTable :=
  { r with contacts := r.contacts.filter (fun c => !(c.id == n.id)) }

def RoutingTable.find_neighbors (r : RoutingTable) (target : Node)
    (exclude : Option Node) : List Node :=
  (List.insertionSort (nodeDistLe target)
      (r.contacts.filter (fun c =>
        match exclude with
        | Option.some e => !(c.is_same_node e)
        | Option.none => true))).take r.ksize

/-!
### `kademlia/protocol.py`, class `KademliaProtocol`

Handlers run against an explicit state; `asyncio.ensure_future(call_store …)`
fire-and-forget republications are recorded in `pendingStores`.  `now` is the
instant at which a handler runs (the storage TTL is checked against it).
-/

/-- The per-protocol constants of `KademliaProtocol.__init__`: the owning
node.  (`ksize` lives in the routing table it configures.) -/
structure KadConfig where
  source_node : Node

/-- The mutable state a handler touches. -/
structure KadState where
  router : RoutingTable
  storage : Storage
  now : Nat
  pendingStores : List (Node × Nat × PyValue) := []

/-- `Node(node_id, sender[0], sender[1])` as built by the handlers. -/
def senderNode (sender : String × Nat) (node_id : Nat) : Node :=
  { id := node_id, ip := Option.some sender.1, port := Option.some sender.2 }

/-- The test in `welcome_if_new`'s loop body deciding whether to issue a
background store for one stored key:
`if not neighbors or (new_node_close and this_closest)`, where
`new_node_close` compares the new node against `neighbors[-1]` and
`this_closest` compares this node against `neighbors[0]` (both only computed
when `neighbors` is non-empty). -/
def republishCheck (cfg : KadConfig) (st : KadState) (node : Node) (key : Nat) : Bool :=
  let keynode : Node := { id := digest key }
  let neighbors := st.router.find_neighbors keynode Option.none
  match neighbors.getLast?, neighbors.head? with
  | Option.some last, Option.some first =>
      decide (node.distance_to keynode < last.distance_to keynode) &&
        decide (cfg.source_node.distance_to keynode < first.distance_to keynode)
  | _, _ => true

/-- `KademliaProtocol.welcome_if_new`: no-op unless the node is new; for each
stored `(key, value)`, issue a background `call_store` when `republishCheck`
passes; finally `add_contact` the node. -/
def welcome_if_new (cfg : KadConfig) (st : KadState) (node : Node) : KadState :=
  if st.router.is_new_node node then
    let stores := (st.storage.items st.now).filter
      (fun kv => republishCheck cfg st node kv.1)
    { st with
      pendingStores := st.pendingStores ++ stores.map (fun kv => (node, kv.1, kv.2)),
      router := st.router.add_contact node }
  else st

/-- `KademliaProtocol.rpc_store`: welcome the sender, unconditionally write
`storage[key] = value`, return `True`. -/
def rpc_store (cfg : KadConfig) (st : KadState) (sender : String × Nat)
    (node_id key : Nat) (value : PyValue) : Bool × KadState :=
  let st1 := welcome_if_new cfg st (senderNode sender node_id)
  (true, { st1 with storage := st1.storage.set st1.now key value })

/-- The `(id, ip, port)` triple `tuple(node)` produces. -/
def nodeTriple (n : Node) : Nat × Option String × Option Nat :=
  (n.id, n.ip, n.port)

/-- `KademliaProtocol.rpc_find_node`: welcome the sender, then return the
neighbors of `Node(key)` from the routing table, excluding the sender. -/
def rpc_find_node (cfg : KadConfig) (st : KadState) (sender : String × Nat)
    (node_id key : Nat) : List (Nat × Option String × Option Nat) × KadState :=
  let source := senderNode sender node_id
  let st1 := welcome_if_new cfg st source
  let neighbors := st1.router.find_neighbors { id := key } (Option.some source)
  (neighbors.map nodeTriple, st1)

/-- The tagged union `rpc_find_value` returns: neighbor triples, or the found
value wrapped in the distinguishing one-entry map. -/
inductive FindValueResult where
  | nodes : List (Nat × Option String × Option Nat) → FindValueResult
  | value : PyValue → FindValueResult
deriving DecidableEq

/-- `KademliaProtocol.rpc_find_value`: welcome the sender; look the key up
with a `None` default; on `None` fall through to `rpc_find_node`, otherwise
return the tagged value. -/
def rpc_find_value (cfg : KadConfig) (st : KadState) (sender : String × Nat)
    (node_id key : Nat) : FindValueResult × KadState :=
  let source := senderNode sender node_id
  let st1 := welcome_if_new cfg st source
  let value := (st1.storage.get? st1.now key).getD PyValue.none
  if value = PyValue.none then
    let r := rpc_find_node cfg st1 sender node_id key
    (FindValueResult.nodes r.1, r.2)
  else
    (FindValueResult.value value, st1)

/-- `KademliaProtocol.handle_call_response`: on a failed result remove the
peer from the routing table, on success welcome it; either way hand the
result back unmodified. -/
def handle_call_response {α : Type} (cfg : KadConfig) (st : KadState)
    (result : Bool × α) (node : Node) : (Bool × α) × KadState :=
  if !result.1 then
    (result, { st with router := st.router.remove_contact node })
  else
    (result, welcome_if_new cfg st node)

/-- A concrete protocol configuration for evaluations: this node has id 0. -/
def cfgW : KadConfig := ⟨{ id := 0 }⟩

/-- A concrete state: empty routing table, storage holding key 5 with value
`val 7` and key 6 with the Python value `None`, at time 0, TTL 10. -/
def stW : KadState :=
  { router := { ksize := 2, contacts := [] },
    storage := { ttl := 10, data := [(5, 0, PyValue.val 7), (6, 0, PyValue.none)] },
    now := 0 }

theorem welcome_storage (cfg : KadConfig) (st : KadState) (n : Node) :
    (welcome_if_new cfg st n).storage = st.storage := by
  unfold welcome_if_new; split <;> rfl

theorem welcome_now (cfg : KadConfig) (st : KadState) (n : Node) :
    (welcome_if_new cfg st n).now = st.now := by
  unfold welcome_if_new; split <;> rfl

theorem is_new_node_add_contact (r : RoutingTable) (n : Node) :
    (r.add_contact n).is_new_node n = false := by
  unfold RoutingTable.add_contact
  split
  · simp [RoutingTable.is_new_node]
  · rename_i h
    exact Bool.eq_false_iff.2 h

theorem welcome_is_new_false (cfg : KadConfig) (st : KadState) (n : Node) :
    ((welcome_if_new cfg st n).router).is_new_node n = false := by
  unfold welcome_if_new
  split
  · exact is_new_node_add_contact st.router n
  · rename_i h
    exact Bool.eq_false_iff.2 h

theorem welcome_not_new (cfg : KadConfig) (st : KadState) (n : Node)
    (h : st.router.is_new_node n = false) : welcome_if_new cfg st n = st := by
  unfold welcome_if_new
  rw [h]
  simp

theorem welcome_idem (cfg : KadConfig) (st : KadState) (n : Node) :
    welcome_if_new cfg (welcome_if_new cfg st n) n = welcome_if_new cfg st n :=
  welcome_not_new cfg _ n (welcome_is_new_false cfg st n)

theorem rpc_find_value_hit (cfg : KadConfig) (st : KadState) (sender : String × Nat)
    (node_id key : Nat) (v : PyValue)
    (hv : st.storage.get? st.now key = Option.some v) (hne : v ≠ PyValue.none) :
    rpc_find_value cfg st sender node_id key
      = (FindValueResult.value v, welcome_if_new cfg st (senderNode sender node_id)) := by
  simp only [rpc_find_value]
  rw [welcome_storage, welcome_now, hv]
  simp [hne]

theorem rpc_find_value_miss (cfg : KadConfig) (st : KadState) (sender : String × Nat)
    (node_id key : Nat)
    (h : (st.storage.get? st.now key).getD PyValue.none = PyValue.none) :
    rpc_find_value cfg st sender node_id key
      = (FindValueResult.nodes (rpc_find_node cfg st sender node_id key).1,
         (rpc_find_node cfg st sender node_id key).2) := by
  have hfn : rpc_find_node cfg (welcome_if_new cfg st (senderNode sender node_id))
      sender node_id key = rpc_find_node cfg st sender node_id key := by
    simp only [rpc_find_node]
    rw [welcome_idem]
  simp only [rpc_find_value]
  rw [welcome_storage, welcome_now, h, hfn]
  simp

/-- Claim C3: `handle_call_response` hands the result tuple back unmodified in
both cases; a failed result removes the peer from the routing table, a
successful one welcomes the peer. -/
theorem handle_call_response_spec {α : Type} (cfg : KadConfig) (st : KadState)
    (result : Bool × α) (node : Node) :
    (handle_call_response cfg st result node).1 = result ∧
    (result.1 = false →
      (handle_call_response cfg st result node).2
        = { st with router := st.router.remove_contact node }) ∧
    (result.1 = true →
      (handle_call_response cfg st result node).2 = welcome_if_new cfg st node) := by
  unfold handle_call_response
  rcases result with ⟨b, a⟩
  cases b <;> simp

/-- Claim C3 (witness): a failed call (flag `False`) comes back unchanged with
the peer evicted; a successful one comes back unchanged. -/
theorem handle_call_response_spec_witness :
    (handle_call_response cfgW stW ((false, 42) : Bool × Nat) nd3).1 = (false, 42) ∧
    (handle_call_response cfgW stW ((false, 42) : Bool × Nat) nd3).2
      = { stW with router := stW.router.remove_contact nd3 } ∧
    (handle_call_response cfgW stW ((true, 7) : Bool × Nat) nd3).1 = (true, 7) := by
  refine ⟨(handle_call_response_spec cfgW stW ((false, 42) : Bool × Nat) nd3).1,
    (handle_call_response_spec cfgW stW ((false, 42) : Bool × Nat) nd3).2.1 rfl,
    (handle_call_response_spec cfgW stW ((true, 7) : Bool × Nat) nd3).1⟩

/-- Claim C9: a key stored with value `None` is indistinguishable from a miss:
`rpc_find_value` falls through to the `rpc_find_node` branch and in particular
never returns the tagged `None`. -/
theorem rpc_find_value_stored_none (cfg : KadConfig) (st : KadState)
    (sender : String × Nat) (node_id key : Nat)
    (h : st.storage.get? st.now key = Option.some PyValue.none) :
    rpc_find_value cfg st sender node_id key
      = (FindValueResult.nodes (rpc_find_node cfg st sender node_id key).1,
         (rpc_find_node cfg st sender node_id key).2) ∧
    (rpc_find_value cfg st sender node_id key).1 ≠ FindValueResult.value PyValue.none := by
  have hm := rpc_find_value_miss cfg st sender node_id key (by rw [h]; rfl)
  refine ⟨hm, ?_⟩
  rw [hm]
  exact fun hc => FindValueResult.noConfusion hc

/-- Claim C9 (witness): in the concrete state, key 6 is stored as `None` and
the handler answers with the neighbor branch, never the tagged `None`. -/
theorem rpc_find_value_stored_none_witness :
    stW.storage.get? stW.now 6 = Option.some PyValue.none ∧
    (rpc_find_value cfgW stW ("a", 1) 1 6).1 ≠ FindValueResult.value PyValue.none := by
  refine ⟨by decide, ?_⟩
  exact (rpc_find_value_stored_none cfgW stW ("a", 1) 1 6 (by decide)).2

/-- Claim C1 (counterexample): local storage holds a value (Python `None`) for
key 6, yet `rpc_find_value` executes the `rpc_find_node` logic instead of
returning the tagged value, because the handler detects absence with a `None`
sentinel. -/
theorem rpc_find_value_holds_value_cex :
    stW.storage.get? stW.now 6 = Option.some PyValue.none ∧
    (rpc_find_value cfgW stW ("b", 2) 2 6).1 ≠ FindValueResult.value PyValue.none ∧
    (rpc_find_value cfgW stW ("b", 2) 2 6).1
      = FindValueResult.nodes ((rpc_find_node cfgW stW ("b", 2) 2 6).1) := by
  decide

/-- Claim C1 (amended): if local storage holds a non-`None` value for the key,
`rpc_find_value` returns that value in the tagged union and does not run the
`rpc_find_node` logic (the state is exactly the welcomed one and the result
is the tag); if the lookup yields nothing — key absent or stored as `None` —
it returns exactly what `rpc_find_node` returns for the same arguments,
result and state alike. -/
theorem rpc_find_value_spec (cfg : KadConfig) (st : KadState) (sender : String × Nat)
    (node_id key : Nat) :
    (∀ v, st.storage.get? st.now key = Option.some v → v ≠ PyValue.none →
      rpc_find_value cfg st sender node_id key
        = (FindValueResult.value v, welcome_if_new cfg st (senderNode sender node_id))) ∧
    ((st.storage.get? st.now key).getD PyValue.none = PyValue.none →
      rpc_find_value cfg st sender node_id key
        = (FindValueResult.nodes (rpc_find_node cfg st sender node_id key).1,
           (rpc_find_node cfg st sender node_id key).2)) := by
  exact ⟨fun v hv hne => rpc_find_value_hit cfg st sender node_id key v hv hne,
    fun h => rpc_find_value_miss cfg st sender node_id key h⟩

/-- Claim C1 (witness): key 5 holds `val 7` and is answered with the tag; key
99 is absent and is answered exactly as `rpc_find_node` would answer. -/
theorem rpc_find_value_spec_witness :
    (rpc_find_value cfgW stW ("a", 1) 1 5).1 = FindValueResult.value (PyValue.val 7) ∧
    rpc_find_value cfgW stW ("a", 1) 1 99
      = (FindValueResult.nodes (rpc_find_node cfgW stW ("a", 1) 1 99).1,
         (rpc_find_node cfgW stW ("a", 1) 1 99).2) := by
  constructor
  · rw [(rpc_find_value_spec cfgW stW ("a", 1) 1 5).1 (PyValue.val 7) (by decide) (by decide)]
  · exact (rpc_find_value_spec cfgW stW ("a", 1) 1 99).2 (by decide)

theorem storage_get_set_self (s : Storage) (now key : Nat) (v : PyValue) :
    (s.set now key v).get? now key = Option.some v := by
  unfold Storage.get? Storage.set Storage.fresh
  rw [List.filter_append, List.find?_append]
  have h1 : ((s.data.filter (fun e => !(e.1 == key))).filter
      (fun e => now - e.2.1 ≤ s.ttl)).find? (fun e => e.1 == key) = Option.none := by
    rw [List.find?_eq_none]
    intro e he hk
    have hmem := List.of_mem_filter (List.mem_of_mem_filter he)
    rw [hk] at hmem
    simp at hmem
  rw [h1]
  have h2 : List.filter (fun e => now - e.2.1 ≤ s.ttl) [(key, now, v)] = [(key, now, v)] := by
    simp
  rw [h2]
  simp [List.find?]

/-- Claim C2 (counterexample): `rpc_store` for key 7 succeeds, but a
subsequent `rpc_find_value` with targetId `digest 7` does not return the
stored value: the handlers compare keys verbatim (the digest is applied by
the caller layer before `rpc_store`), and `digest 7 ≠ 7`, so the lookup
misses and degrades to the neighbor branch. -/
theorem rpc_store_digest_cex :
    (rpc_store cfgW stW ("a", 1) 1 7 (PyValue.val 3)).1 = true ∧
    digest 7 ≠ 7 ∧
    (rpc_find_value cfgW ((rpc_store cfgW stW ("a", 1) 1 7 (PyValue.val 3)).2)
        ("a", 1) 1 (digest 7)).1 ≠ FindValueResult.value (PyValue.val 3) := by
  decide

/-- Claim C2 (amended): `rpc_store(sender, node_id, K, V)` unconditionally
writes `storage[K] = V` and returns `True`; for a non-`None` `V`, a
subsequent `rpc_find_value` with targetId `K` itself (the key as stored — the
digest is applied by the caller layer before `rpc_store`, not by the
handlers) returns the tagged value `V`. -/
theorem rpc_store_then_find_value (cfg : KadConfig) (st : KadState)
    (sender : String × Nat) (node_id K : Nat) (V : PyValue) (hV : V ≠ PyValue.none) :
    (rpc_store cfg st sender node_id K V).1 = true ∧
    ((rpc_store cfg st sender node_id K V).2).storage.get?
        ((rpc_store cfg st sender node_id K V).2).now K = Option.some V ∧
    (rpc_find_value cfg ((rpc_store cfg st sender node_id K V).2) sender node_id K).1
      = FindValueResult.value V := by
  have hget : ((rpc_store cfg st sender node_id K V).2).storage.get?
      ((rpc_store cfg st sender node_id K V).2).now K = Option.some V :=
    storage_get_set_self ((welcome_if_new cfg st (senderNode sender node_id)).storage)
      ((welcome_if_new cfg st (senderNode sender node_id)).now) K V
  refine ⟨rfl, hget, ?_⟩
  rw [rpc_find_value_hit cfg ((rpc_store cfg st sender node_id K V).2)
    sender node_id K V hget hV]

/-- Claim C2 (witness): storing `val 4` under key 11 and fetching key 11
returns the tagged `val 4`. -/
theorem rpc_store_then_find_value_witness :
    (rpc_store cfgW stW ("a", 1) 1 11 (PyValue.val 4)).1 = true ∧
    (rpc_find_value cfgW ((rpc_store cfgW stW ("a", 1) 1 11 (PyValue.val 4)).2)
        ("a", 1) 1 11).1 = FindValueResult.value (PyValue.val 4) := by
  have h := rpc_store_then_find_value cfgW stW ("a", 1) 1 11 (PyValue.val 4) (by decide)
  exact ⟨h.1, h.2.2⟩

/-- The republish condition as the amended claim words it, independent of the
source's control flow: a background store for a stored key is issued exactly
when the key currently has no known neighbors at all, or the new peer is
closer to the key's identifier than the farthest of the current nearest
neighbors while this node is closer to it than the nearest of them. -/
def shouldRepublish (cfg : KadConfig) (st : KadState) (node : Node) (key : Nat) : Prop :=
  let keynode : Node := { id := digest key }
  let nb := st.router.find_neighbors keynode Option.none
  nb = [] ∨
    (∃ first last, nb.head? = Option.some first ∧ nb.getLast? = Option.some last ∧
      node.distance_to keynode < last.distance_to keynode ∧
      cfg.source_node.distance_to keynode < first.distance_to keynode)

theorem republish_cond_iff (keynode node src : Node) (nb : List Node) :
    (match nb.getLast?, nb.head? with
     | Option.some last, Option.some first =>
         decide (node.distance_to keynode < last.distance_to keynode) &&
           decide (src.distance_to keynode < first.distance_to keynode)
     | _, _ => true) = true ↔
    (nb = [] ∨
      (∃ first last, nb.head? = Option.some first ∧ nb.getLast? = Option.some last ∧
        node.distance_to keynode < last.distance_to keynode ∧
        src.distance_to keynode < first.distance_to keynode)) := by
  cases nb with
  | nil => simp
  | cons a t =>
      obtain ⟨lst, hlst⟩ : ∃ z, (a :: t).getLast? = Option.some z := by
        cases h : (a :: t).getLast? with
        | none =>
            rw [List.getLast?_eq_none_iff] at h
            exact absurd h (by simp)
        | some z => exact ⟨z, rfl⟩
      rw [hlst]
      simp [hlst, Bool.and_eq_true, decide_eq_true_eq, and_assoc]

instance (cfg : KadConfig) (st : KadState) (node : Node) (key : Nat) :
    Decidable (shouldRepublish cfg st node key) :=
  decidable_of_iff _ (republish_cond_iff { id := digest key } node cfg.source_node
    (st.router.find_neighbors { id := digest key } Option.none))

theorem republishCheck_eq_decide (cfg : KadConfig) (st : KadState) (node : Node)
    (key : Nat) :
    republishCheck cfg st node key
      = decide (shouldRepublish cfg st node key) := by
  rw [Bool.eq_iff_iff, decide_eq_true_eq]
  exact republish_cond_iff { id := digest key } node cfg.source_node
    (st.router.find_neighbors { id := digest key } Option.none)

/-- Claim C4 (counterexample): in a state with an empty routing table, the
stored keys have no "current k nearest neighbors" at all, so the claim's
condition — beating the farthest and the nearest of them — cannot hold for
any key, yet `welcome_if_new` of a new peer issues a background `call_store`
for every stored key. -/
theorem welcome_if_new_empty_cex :
    stW.router.find_neighbors { id := digest 5 } Option.none = [] ∧
    stW.router.find_neighbors { id := digest 6 } Option.none = [] ∧
    (welcome_if_new cfgW stW
        { id := 8, ip := Option.some "b", port := Option.some 2 }).pendingStores
      = [({ id := 8, ip := Option.some "b", port := Option.some 2 }, 5, PyValue.val 7),
         ({ id := 8, ip := Option.some "b", port := Option.some 2 }, 6, PyValue.none)] := by
  decide

/-- Claim C4 (amended): `welcome_if_new(peer)` is a no-op when the routing
table reports the peer as not new; when the peer is new, a background
`call_store(peer, key, value)` is issued for exactly those stored pairs whose
key either has no known neighbors at all, or for which the new peer is closer
to the key's identifier than the farthest current neighbor and this node is
closer than the nearest of them; finally the peer is registered via
`add_contact`. -/
theorem welcome_if_new_spec (cfg : KadConfig) (st : KadState) (node : Node) :
    (st.router.is_new_node node = false → welcome_if_new cfg st node = st) ∧
    (st.router.is_new_node node = true →
      welcome_if_new cfg st node =
        { st with
          pendingStores := st.pendingStores ++
            ((st.storage.items st.now).filter
              (fun kv => decide (shouldRepublish cfg st node kv.1))).map
                (fun kv => (node, kv.1, kv.2)),
          router := st.router.add_contact node }) := by
  refine ⟨welcome_not_new cfg st node, ?_⟩
  intro h
  unfold welcome_if_new
  rw [h, if_pos rfl]
  simp only [republishCheck_eq_decide]

/-- A peer and a state that already knows it, for the C4 no-op case. -/
def ndC : Node := { id := 12, ip := Option.some "c", port := Option.some 3 }

def stW1 : KadState := { stW with router := { ksize := 2, contacts := [ndC] } }

/-- Claim C4 (witness): welcoming an already-known peer changes nothing;
welcoming a new peer into the concrete state issues the stores selected by
the spec condition (both stored keys, as the table is empty) and registers
the peer. -/
theorem welcome_if_new_spec_witness :
    welcome_if_new cfgW stW1 ndC = stW1 ∧
    (welcome_if_new cfgW stW ndC).pendingStores
      = [(ndC, 5, PyValue.val 7), (ndC, 6, PyValue.none)] := by
  constructor
  · exact (welcome_if_new_spec cfgW stW1 ndC).1 (by decide)
  · rw [(welcome_if_new_spec cfgW stW ndC).2 (by decide)]
    decide

end Kademlia
